import Mathlib


/-!
Verification of the seal-video-automation pipeline against its design
specification.

The Python sources are shallowly embedded: Python floats become exact
rationals, dictionaries become association lists, exceptions become
Except values, and in-place mutation becomes explicit state passing.
-/

/-! ### Ranking engine (script_generator.py, class TrendAnalyzer) -/

/-- Embeds the TrendTopic dataclass (script_generator.py lines 487-498).
The title is optional so that a malformed candidate with a missing title
is representable; no other code of the ranking engine reads the title. -/
structure TrendTopic where
  title : Option String
  category : String
  search_volume : Int
  growth_rate : ℚ
  region : String
  related_keywords : List String
  content_suggestions : List String
  source : String
  confidence_score : ℚ
deriving DecidableEq

/-- Embeds the category_bonus dictionary lookup with default 1.0
(script_generator.py lines 835-842). -/
def categoryBonus (c : String) : ℚ :=
  if c = "finance" then 13/10
  else if c = "tech" then 12/10
  else if c = "education" then 11/10
  else if c = "lifestyle" then 9/10
  else if c = "entertainment" then 8/10
  else 1

/-- Embeds the source_bonus dictionary lookup with default 1.0
(script_generator.py lines 845-850). -/
def sourceBonus (s : String) : ℚ :=
  if s = "youtube" then 12/10
  else if s = "google_trends" then 11/10
  else if s = "reddit" then 9/10
  else 1

/-- Embeds the score computation of _score_and_rank_trends
(script_generator.py lines 830-859): confidence times category bonus
times source bonus times volume bonus, clamped to at most 1. -/
def scoreTrend (t : TrendTopic) : ℚ :=
  let b1 := t.confidence_score * categoryBonus t.category
  let b2 := b1 * sourceBonus t.source
  let b3 := if t.search_volume > 1000 then b2 * (12/10)
            else if t.search_volume > 500 then b2 * (11/10)
            else b2
  if b3 ≤ 1 then b3 else 1

/-- Embeds the in-place write trend.confidence_score = min(base_score, 1.0)
(script_generator.py line 859) as a functional update. -/
def updateScore (t : TrendTopic) : TrendTopic :=
  { t with confidence_score := scoreTrend t }

/-- Comparison used to model Python sorted(..., key=lambda x:
x.confidence_score, reverse=True): a may precede b exactly when b's key
does not exceed a's.  Keeping the left element on ties matches the
stability of Python's sort. -/
def trendLE (a b : TrendTopic) : Bool :=
  b.confidence_score ≤ a.confidence_score

/-- Embeds _score_and_rank_trends (script_generator.py lines 827-862):
every trend's confidence_score is overwritten with its clamped score, then
the list is stably sorted by that score, descending. -/
def scoreAndRankTrends (trends : List TrendTopic) : List TrendTopic :=
  (trends.map updateScore).mergeSort trendLE

/-- Embeds the source-gathering loop of get_trending_topics
(script_generator.py lines 540-546): list results are concatenated in
source order, exceptions contribute nothing. -/
def gatherTrends (results : List (Except String (List TrendTopic))) : List TrendTopic :=
  results.foldl
    (fun acc r =>
      match r with
      | Except.ok l => acc ++ l
      | Except.error _ => acc)
    []

/-- Embeds get_trending_topics (script_generator.py lines 527-552):
gather, rank, truncate to count. -/
def getTrendingTopics (results : List (Except String (List TrendTopic)))
    (count : Nat) : List TrendTopic :=
  (scoreAndRankTrends (gatherTrends results)).take count

/-- Source priority as the specification states it: video_platform
(youtube) over broad_search (google_trends) over forum (reddit). -/
def sourcePriority (s : String) : Nat :=
  if s = "youtube" then 2
  else if s = "google_trends" then 1
  else 0

/-- Modelled from the spec: the ordering the spec claims for ranked
output - a precedes b only when a's score is strictly higher, or the
scores tie and a's source priority is at least b's. -/
def specRankOrder (a b : TrendTopic) : Prop :=
  b.confidence_score < a.confidence_score
    ∨ (a.confidence_score = b.confidence_score
        ∧ sourcePriority b.source ≤ sourcePriority a.source)

/-- Concrete candidate discovered first: forum source (reddit), score
(4/10) * 1 * (9/10) = 9/25. -/
def tA : TrendTopic :=
  ⟨some "A", "general", 0, 0, "US", [], [], "reddit", 4/10⟩

/-- Concrete candidate discovered second: video-platform source
(youtube), score (3/10) * 1 * (12/10) = 9/25, tying with tA. -/
def tB : TrendTopic :=
  ⟨some "B", "general", 0, 0, "US", [], [], "youtube", 3/10⟩

/-- Concrete finance candidate whose stored confidence 1/2 is overwritten
by ranking with the clamped score (1/2) * (13/10) = 13/20. -/
def tFin : TrendTopic :=
  ⟨some "F", "finance", 0, 0, "US", [], [], "unknown", 1/2⟩

/-- Malformed candidate with no title. -/
def tNoTitle : TrendTopic :=
  ⟨none, "general", 0, 0, "US", [], [], "reddit", 1/2⟩

/-! ### Voiceover generator (voiceover_generator.py, class VoiceoverGenerator) -/

/-- Embeds one per-language voice configuration dictionary
(voiceover_generator.py lines 28-61). -/
structure VoiceConfig where
  voice_id : String
  model_id : String
  stability : ℚ
  similarity_boost : ℚ
  style : ℚ
  use_speaker_boost : Bool
deriving DecidableEq

/-- Embeds the stored English voice configuration
(voiceover_generator.py lines 29-36). -/
def enVoiceConfig : VoiceConfig :=
  ⟨"21m00Tcm4TlvDq8ikWAM", "eleven_multilingual_v2", 5/10, 8/10, 0, true⟩

/-- Embeds the initial self.voice_configs dictionary
(voiceover_generator.py lines 28-61) as an association list in insertion
order. -/
def initVoiceConfigs : List (String × VoiceConfig) :=
  [("en", enVoiceConfig),
   ("de", ⟨"pNInz6obpgDQGcFmaJgB", "eleven_multilingual_v2", 6/10, 7/10, 1/10, true⟩),
   ("ko", ⟨"Xb7hH8MSUJpSbSDYk0k2", "eleven_multilingual_v2", 4/10, 9/10, 2/10, true⟩),
   ("zh", ⟨"pMsXgVXv3BLzUgSXRplE", "eleven_multilingual_v2", 5/10, 8/10, 1/10, true⟩)]

/-- Embeds the self.style_presets dictionary (voiceover_generator.py lines
64-70): stability, similarity_boost, style triples. -/
def stylePresets : List (String × (ℚ × ℚ × ℚ)) :=
  [("professional", (6/10, 8/10, 0)),
   ("energetic", (4/10, 9/10, 3/10)),
   ("calm", (8/10, 6/10, 1/10)),
   ("friendly", (5/10, 7/10, 2/10)),
   ("formal", (7/10, 8/10, 0))]

/-- Embeds Python dictionary assignment d[k] = v on an association list:
the value is replaced in place if the key exists, appended otherwise. -/
def dictInsert {α : Type} (m : List (String × α)) (k : String) (v : α) :
    List (String × α) :=
  if m.any (fun p => p.1 = k) then
    m.map (fun p => if p.1 = k then (k, v) else p)
  else m ++ [(k, v)]

/-- Embeds self.voice_configs.get(language, self.voice_configs['en'])
(voiceover_generator.py line 89); none models the KeyError raised when
the 'en' entry is also absent. -/
def getVoiceConfig (configs : List (String × VoiceConfig)) (language : String) :
    Option VoiceConfig :=
  match configs.lookup language with
  | some c => some c
  | none => configs.lookup "en"

/-- Key of the stored dictionary entry that the aliased voice_config
reference points at: the language itself when configured, otherwise the
shared 'en' entry. -/
def voiceConfigKey (configs : List (String × VoiceConfig)) (language : String) :
    String :=
  if (configs.lookup language).isSome then language else "en"

/-- Embeds the in-place mutation of the aliased voice_config dict
(voiceover_generator.py lines 92-98): an optional custom voice id
overwrites voice_id, then a recognized style preset overwrites stability,
similarity_boost and style. -/
def styledConfig (base : VoiceConfig) (voice_style : String)
    (custom_voice_id : Option String) : VoiceConfig :=
  let c1 := match custom_voice_id with
            | some v => { base with voice_id := v }
            | none => base
  match stylePresets.lookup voice_style with
  | some p => { c1 with stability := p.1, similarity_boost := p.2.1, style := p.2.2 }
  | none => c1

/-- Embeds str.split('. ') (voiceover_generator.py line 134): pieces
between non-overlapping occurrences of the two-character separator,
scanning left to right. -/
def splitDotSpace : List Char → List (List Char)
  | [] => [[]]
  | [c] => [[c]]
  | c :: d :: rest =>
    if c = '.' ∧ d = ' ' then [] :: splitDotSpace rest
    else
      match splitDotSpace (d :: rest) with
      | [] => [[c]]
      | p :: ps => (c :: p) :: ps

/-- Embeds str.strip() (voiceover_generator.py lines 142 and 146):
whitespace removed from both ends. -/
def stripChars (s : List Char) : List Char :=
  ((s.dropWhile Char.isWhitespace).reverse.dropWhile Char.isWhitespace).reverse

/-- Embeds one iteration of the sentence-accumulation loop of
_split_text_for_tts (voiceover_generator.py lines 137-143): state is
(chunks so far, current chunk). -/
def chunkStep (maxChars : Nat) (st : List (List Char) × List Char)
    (sentence : List Char) : List (List Char) × List Char :=
  if (st.2 ++ sentence ++ ['.', ' ']).length ≤ maxChars then
    (st.1, st.2 ++ sentence ++ ['.', ' '])
  else
    (if st.2 = [] then st.1 else st.1 ++ [stripChars st.2], sentence ++ ['.', ' '])

/-- Embeds _split_text_for_tts (voiceover_generator.py lines 128-148). -/
def splitTextForTts (text : List Char) (maxChars : Nat) : List (List Char) :=
  if text.length ≤ maxChars then [text]
  else
    let st := (splitDotSpace text).foldl (chunkStep maxChars) ([], [])
    if st.2 = [] then st.1 else st.1 ++ [stripChars st.2]

/-- Environment of external effects of create_voiceover: API-key
presence, the per-chunk synthesis outcome of _generate_audio_chunk (none
models the caught failure returning None), the artifact produced by
_merge_audio_files (total, since all its failure paths return the first
file), the gTTS fallback outcome and the silent-file outcome (none models
a raised exception). -/
structure VoiceEnv where
  hasApiKey : Bool
  chunkSynth : Nat → List Char → Option String
  mergeFiles : List String → String
  gtts : Option String
  silent : Option String

/-- Embeds the fixed 30-second duration of the silent terminal fallback
(voiceover_generator.py line 287). -/
def silentAudioDurationSeconds : Nat := 30

/-- Embeds _create_fallback_audio chained with _create_silent_audio
(voiceover_generator.py lines 240-297): gTTS first, then the silent file,
and the empty string when even that raises. -/
def fallbackAudio (env : VoiceEnv) : String :=
  match env.gtts with
  | some p => p
  | none =>
    match env.silent with
    | some p => p
    | none => ""

/-- Embeds the chunk loop of create_voiceover (voiceover_generator.py
lines 102-109): each chunk is synthesized with its index, failed chunks
contribute nothing to audio_files. -/
def primaryFiles (env : VoiceEnv) (text : List Char) : List String :=
  (splitTextForTts text 2500).enum.filterMap (fun ic => env.chunkSynth ic.1 ic.2)

/-- Embeds the assembly step of create_voiceover (voiceover_generator.py
lines 111-115): merge when more than one file, the single file when one,
none when no chunk succeeded. -/
def primaryResult (env : VoiceEnv) (text : List Char) : Option String :=
  let files := primaryFiles env text
  if files.length > 1 then some (env.mergeFiles files) else files.head?

/-- Embeds create_voiceover (voiceover_generator.py lines 76-126): result
is the updated voice_configs state paired with the returned audio path. -/
def createVoiceover (env : VoiceEnv) (configs : List (String × VoiceConfig))
    (text : List Char) (language : String) (voice_style : String)
    (custom_voice_id : Option String) : List (String × VoiceConfig) × String :=
  if env.hasApiKey = false then (configs, fallbackAudio env)
  else
    match getVoiceConfig configs language with
    | none => (configs, fallbackAudio env)
    | some base =>
      let key := voiceConfigKey configs language
      let cfg := styledConfig base voice_style custom_voice_id
      let configs2 := dictInsert configs key cfg
      match primaryResult env text with
      | some f => (configs2, f)
      | none => (configs2, fallbackAudio env)

/-- Environment in which the primary synthesis tier succeeds on every
chunk. -/
def envPrimaryOk : VoiceEnv :=
  ⟨true, fun _ _ => some "chunk0.mp3", fun _ => "merged.mp3", none, none⟩

/-- Text of two 1300-character sentences separated by a period-space:
long enough to be split into two chunks. -/
def textC3 : List Char :=
  List.replicate 1300 'a' ++ '.' :: ' ' :: List.replicate 1300 'b'

/-- Environment in which the first chunk synthesizes and the second chunk
fails, while both fallback tiers would be available. -/
def envC3 : VoiceEnv :=
  ⟨true, fun i _ => if i = 0 then some "c0.mp3" else none,
   fun _ => "merged.mp3", some "gtts.mp3", some "silent.mp3"⟩

/-- Environment in which the API key is absent and both fallback tiers
raise. -/
def envAllFail : VoiceEnv :=
  ⟨false, fun _ _ => none, fun _ => "", none, none⟩

/-- Environment in which only the terminal silent fallback is available. -/
def envSilentOnly : VoiceEnv :=
  ⟨false, fun _ _ => none, fun _ => "", none, some "silent.mp3"⟩

/-! ### Stage pipeline and cycle orchestrator (main_automation_script.py) -/

/-- Environment of the five per-language stage calls of
create_video_content (main_automation_script.py lines 88-136); each stage
either returns its artifact or raises with a message. -/
structure LangEnv where
  generateScript : Except String String
  addAffiliateContent : String → Except String String
  createVoiceoverStage : String → Except String String
  createVideo : String → String → Except String String
  uploadVideo : String → String → Except String String

/-- Value stored per language in the results dictionary of
create_video_content: either the full artifact set (lines 130-136) or the
error record (line 142). -/
inductive LangResult where
  | ok (script audio video upload : String)
  | error (msg : String)
deriving DecidableEq

/-- Embeds the body of the per-language try block of create_video_content
(main_automation_script.py lines 89-142): stages run in order, the first
raise is caught and recorded as an error entry. -/
def runLang (env : LangEnv) (includeAffiliates : Bool) : LangResult :=
  match env.generateScript with
  | Except.error e => LangResult.error e
  | Except.ok script0 =>
    match (if includeAffiliates then env.addAffiliateContent script0
           else Except.ok script0) with
    | Except.error e => LangResult.error e
    | Except.ok script =>
      match env.createVoiceoverStage script with
      | Except.error e => LangResult.error e
      | Except.ok audio =>
        match env.createVideo script audio with
        | Except.error e => LangResult.error e
        | Except.ok video =>
          match env.uploadVideo video script with
          | Except.error e => LangResult.error e
          | Except.ok upload => LangResult.ok script audio video upload

/-- Embeds the language loop of create_video_content
(main_automation_script.py lines 86-144): the results dictionary receives
one entry per language. -/
def createVideoContent (env : String → LangEnv) (includeAffiliates : Bool)
    (languages : List String) : List (String × LangResult) :=
  languages.foldl
    (fun m lang => dictInsert m lang (runLang (env lang) includeAffiliates)) []

/-- Stage environment for the two-language example: the German branch
fails at the voice stage, the English branch succeeds throughout. -/
def langEnvEx : String → LangEnv := fun lang =>
  if lang = "de" then
    ⟨Except.ok "script-de", fun s => Except.ok s, fun _ => Except.error "TTS down",
     fun _ _ => Except.ok "video-de", fun _ _ => Except.ok "upload-de"⟩
  else
    ⟨Except.ok "script-en", fun s => Except.ok s, fun _ => Except.ok "audio-en",
     fun _ _ => Except.ok "video-en", fun _ _ => Except.ok "upload-en"⟩

/-- Environment of one automation cycle (main_automation_script.py lines
54-74): the outcome of get_trending_topics, and per topic the outcome of
the create_video_content call as seen by the per-topic try block. -/
structure CycleEnv where
  trendTopics : Except String (List TrendTopic)
  perTopic : TrendTopic → Except String (List (String × LangResult))

/-- Embeds generate_trending_content (main_automation_script.py lines
54-74): a raise from get_trending_topics propagates; per-topic failures
are caught and skipped. -/
def generateTrendingContent (env : CycleEnv) :
    Except String (List (List (String × LangResult))) :=
  match env.trendTopics with
  | Except.error e => Except.error e
  | Except.ok topics =>
    Except.ok (topics.foldl
      (fun acc t =>
        match env.perTopic t with
        | Except.ok r => acc ++ [r]
        | Except.error _ => acc)
      [])

/-- Embeds run_automation_cycle (main_automation_script.py lines 146-167):
the except block logs the error and re-raises it, so the outcome
propagates unchanged. -/
def runAutomationCycle (env : CycleEnv) :
    Except String (List (List (String × LangResult))) :=
  match generateTrendingContent env with
  | Except.ok results => Except.ok results
  | Except.error e => Except.error e

/-- Embeds the auto-mode loop of main (main_automation_script.py lines
214-241): cycles run in order; an exception escapes the while loop, is
caught by the outer handler and the process exits with status 1.  The
result is the number of cycles attempted paired with the exit status
(none when the modelled cycle list is exhausted without a failure). -/
def mainAutoMode : List CycleEnv → Nat × Option Nat
  | [] => (0, none)
  | env :: rest =>
    match runAutomationCycle env with
    | Except.ok _ =>
      let r := mainAutoMode rest
      (r.1 + 1, r.2)
    | Except.error _ => (1, some 1)

/-- Cycle whose trend analysis (ranking engine) crashes. -/
def cycleBad : CycleEnv := ⟨Except.error "ranking crashed", fun _ => Except.ok []⟩

/-- Cycle that completes normally with no topics. -/
def cycleGood : CycleEnv := ⟨Except.ok [], fun _ => Except.ok []⟩

/-! ### Deferred feedback collection (main_automation_script.py lines 169-185) -/

/-- Embeds the fixed two-hour delay before metrics collection
(main_automation_script.py line 174). -/
def feedbackDelaySeconds : Nat := 7200

/-- Uploads eligible for metrics collection in one topic result: the
entries carrying upload_results, in dictionary order. -/
def uploadsOf (r : List (String × LangResult)) : List String :=
  r.filterMap (fun p =>
    match p.2 with
    | LangResult.ok _ _ _ u => some u
    | LangResult.error _ => none)

/-- Embeds the inner loop of collect_feedback_for_videos for one topic
result (main_automation_script.py lines 176-185): the collector is
invoked on each upload-bearing entry in order, and a raise aborts the
rest of this topic's entries (the try block wraps the whole inner loop).
The returned list is the trace of collector invocations. -/
def collectResult (collect : String → Except String Unit) :
    List (String × LangResult) → List String
  | [] => []
  | (_, LangResult.error _) :: rest => collectResult collect rest
  | (_, LangResult.ok _ _ _ u) :: rest =>
    match collect u with
    | Except.ok _ => u :: collectResult collect rest
    | Except.error _ => [u]

/-- Embeds the outer loop of collect_feedback_for_videos
(main_automation_script.py lines 176-185): topic results are processed
independently, each under its own try block. -/
def collectFeedbackForVideos (collect : String → Except String Unit)
    (results : List (List (String × LangResult))) : List String :=
  results.foldl (fun acc r => acc ++ collectResult collect r) []

/-- Collector that fails on upload u1 only. -/
def collectEx : String → Except String Unit :=
  fun u => if u = "u1" then Except.error "api down" else Except.ok ()

/-- One topic result with two uploaded languages. -/
def resultsEx : List (List (String × LangResult)) :=
  [[("en", LangResult.ok "s" "a" "v" "u1"), ("de", LangResult.ok "s" "a" "v" "u2")]]

/-- Collector that succeeds on every upload. -/
def collectOkAll : String → Except String Unit := fun _ => Except.ok ()

/-! ### Theorems -/

theorem trendLE_trans (a b c : TrendTopic) (h1 : trendLE a b = true)
    (h2 : trendLE b c = true) : trendLE a c = true := by
  simp only [trendLE, decide_eq_true_eq] at h1 h2 ⊢
  exact le_trans h2 h1

theorem trendLE_total (a b : TrendTopic) : (trendLE a b || trendLE b a) = true := by
  simp only [trendLE, Bool.or_eq_true, decide_eq_true_eq]
  exact le_total b.confidence_score a.confidence_score

theorem scoreTrend_tA : scoreTrend tA = 9/25 := by
  simp [scoreTrend, tA, categoryBonus, sourceBonus]
  norm_num

theorem scoreTrend_tB : scoreTrend tB = 9/25 := by
  simp [scoreTrend, tB, categoryBonus, sourceBonus]
  norm_num

theorem rank_tA_tB : scoreAndRankTrends [tA, tB] = [updateScore tA, updateScore tB] := by
  apply List.mergeSort_of_sorted
  simp [trendLE, updateScore, scoreTrend_tA, scoreTrend_tB]

/-- C1: the claim asserts a source-priority tie-break on equal scores; the
code sorts only by score (stable), so the reddit-sourced candidate tA,
discovered first, precedes the youtube-sourced tB despite the equal score.
This refutes the claimed ordering on a concrete two-candidate list. -/
theorem rank_no_source_tiebreak :
    ¬ (scoreAndRankTrends [tA, tB]).Pairwise specRankOrder := by
  rw [rank_tA_tB]
  intro h
  have hab : specRankOrder (updateScore tA) (updateScore tB) := by
    have := List.pairwise_cons.mp h
    exact this.1 _ (List.mem_cons_self _ _)
  rcases hab with hlt | ⟨heq, hpr⟩
  · rw [show (updateScore tA).confidence_score = scoreTrend tA from rfl,
      show (updateScore tB).confidence_score = scoreTrend tB from rfl,
      scoreTrend_tA, scoreTrend_tB] at hlt
    exact lt_irrefl _ hlt
  · have : sourcePriority (updateScore tB).source ≤ sourcePriority (updateScore tA).source := hpr
    simp [updateScore, tA, tB, sourcePriority] at this

/-- C1 (amended): the ranked output is sorted by descending score, it is a
permutation of the score-updated input, the sort is stable (any correctly
ordered pair of the input keeps its relative order, so equal-score
candidates keep discovery order regardless of source), and
get_trending_topics returns a sorted prefix; there is no source-priority
tie-break. -/
theorem rank_sorted_desc_stable (trends : List TrendTopic) :
    (scoreAndRankTrends trends).Pairwise
      (fun a b => b.confidence_score ≤ a.confidence_score)
    ∧ List.Perm (scoreAndRankTrends trends) (trends.map updateScore)
    ∧ (∀ a b, trendLE a b = true → List.Sublist [a, b] (trends.map updateScore) →
        List.Sublist [a, b] (scoreAndRankTrends trends))
    ∧ ∀ results count,
        (getTrendingTopics results count).Pairwise
          (fun a b => b.confidence_score ≤ a.confidence_score) := by
  refine ⟨?_, ?_, ?_, ?_⟩
  · have h := List.sorted_mergeSort trendLE_trans trendLE_total (trends.map updateScore)
    exact h.imp (fun hab => by simpa [trendLE] using hab)
  · exact List.mergeSort_perm _ _
  · intro a b hle hsub
    exact List.pair_sublist_mergeSort trendLE_trans trendLE_total hle hsub
  · intro results count
    have h := List.sorted_mergeSort trendLE_trans trendLE_total
      ((gatherTrends results).map updateScore)
    have h' : (scoreAndRankTrends (gatherTrends results)).Pairwise
        (fun a b => b.confidence_score ≤ a.confidence_score) :=
      h.imp (fun hab => by simpa [trendLE] using hab)
    exact h'.sublist (List.take_sublist _ _)

/-- Witness for C1 (amended): on the concrete tied pair, the
discovery-order pair is preserved in the ranked output. -/
theorem rank_sorted_desc_stable_witness :
    List.Sublist [updateScore tA, updateScore tB] (scoreAndRankTrends [tA, tB]) :=
  (rank_sorted_desc_stable [tA, tB]).2.2.1 (updateScore tA) (updateScore tB)
    (by
      simp only [trendLE, updateScore, decide_eq_true_eq]
      rw [scoreTrend_tA, scoreTrend_tB])
    (by simp)

/-- C5: the claim asserts ranking modifies no field of any input
candidate; the code writes the clamped score back into confidence_score
(script_generator.py line 859), so the finance candidate tFin comes out
with confidence_score 13/20 instead of its input value 1/2. -/
theorem rank_mutates_confidence :
    scoreAndRankTrends [tFin] = [{ tFin with confidence_score := 13/20 }]
    ∧ ({ tFin with confidence_score := 13/20 } : TrendTopic) ≠ tFin := by
  constructor
  · have h1 : scoreAndRankTrends [tFin] = [updateScore tFin] := by
      simp [scoreAndRankTrends]
    rw [h1]
    have h2 : scoreTrend tFin = 13/20 := by
      simp [scoreTrend, tFin, categoryBonus, sourceBonus]
      norm_num
    simp [updateScore, h2]
  · intro h
    have := congrArg TrendTopic.confidence_score h
    simp only [tFin] at this
    norm_num at this

/-- C5 (amended): every element of the ranked output arises from exactly
one input candidate with title, category, source and raw metric unchanged,
but with confidence_score overwritten by the derived clamped score rather
than left intact. -/
theorem rank_updates_only_score (trends : List TrendTopic) :
    ∀ t' ∈ scoreAndRankTrends trends, ∃ t ∈ trends,
      t' = updateScore t ∧ t'.title = t.title ∧ t'.category = t.category
        ∧ t'.source = t.source ∧ t'.search_volume = t.search_volume
        ∧ t'.confidence_score = scoreTrend t := by
  intro t' ht'
  rw [scoreAndRankTrends, List.mem_mergeSort, List.mem_map] at ht'
  obtain ⟨t, ht, rfl⟩ := ht'
  exact ⟨t, ht, rfl, rfl, rfl, rfl, rfl, rfl⟩

/-- Witness for C5 (amended), instantiated on the finance candidate. -/
theorem rank_updates_only_score_witness :
    ∃ t ∈ [tFin], updateScore tFin = updateScore t
      ∧ (updateScore tFin).title = t.title
      ∧ (updateScore tFin).category = t.category
      ∧ (updateScore tFin).source = t.source
      ∧ (updateScore tFin).search_volume = t.search_volume
      ∧ (updateScore tFin).confidence_score = scoreTrend t :=
  rank_updates_only_score [tFin] (updateScore tFin)
    (by simp [scoreAndRankTrends, List.mem_mergeSort])

/-- C7: the claim asserts a candidate missing a title is dropped and the
output shrinks, with a diagnostic skipped counter; the code never reads
the title, drops nothing and keeps no counter, so the singleton list with
a title-less candidate still ranks to a one-element list. -/
theorem rank_keeps_malformed :
    tNoTitle.title = none ∧ (scoreAndRankTrends [tNoTitle]).length = 1 := by
  constructor
  · rfl
  · simp [scoreAndRankTrends]

/-- C7 (amended): ranking never raises on a candidate with a missing
title - it is a total function that reads no title - and it drops no
element: the output length always equals the input length.  No skipped
counter exists in the code. -/
theorem rank_preserves_length (trends : List TrendTopic) :
    (scoreAndRankTrends trends).length = trends.length := by
  simp [scoreAndRankTrends]

theorem splitDotSpace_no_dot : ∀ (s : List Char), '.' ∉ s → splitDotSpace s = [s]
  | [], _ => rfl
  | [_], _ => rfl
  | c :: d :: rest, h => by
    have hc : ¬ (c = '.' ∧ d = ' ') := by
      intro hcd
      exact h (hcd.1 ▸ List.mem_cons_self _ _)
    have ih := splitDotSpace_no_dot (d :: rest) (fun hm => h (List.mem_cons_of_mem _ hm))
    simp only [splitDotSpace, if_neg hc, ih]

theorem splitDotSpace_append : ∀ (s t : List Char), '.' ∉ s →
    splitDotSpace (s ++ '.' :: ' ' :: t) = s :: splitDotSpace t
  | [], t, _ => by simp [splitDotSpace]
  | [c], t, h => by
    have hc : ¬ (c = '.' ∧ '.' = ' ') := by simp
    simp only [List.cons_append, List.nil_append, splitDotSpace, if_neg hc]
    simp [splitDotSpace]
  | c :: d :: s', t, h => by
    have hc : ¬ (c = '.' ∧ d = ' ') := by
      intro hcd
      exact h (hcd.1 ▸ List.mem_cons_self _ _)
    have ih := splitDotSpace_append (d :: s') t (fun hm => h (List.mem_cons_of_mem _ hm))
    simp only [List.cons_append] at ih ⊢
    simp only [splitDotSpace, if_neg hc, ih]

theorem splitDotSpace_ne_nil : ∀ (s : List Char), splitDotSpace s ≠ []
  | [] => by simp [splitDotSpace]
  | [_] => by simp [splitDotSpace]
  | _ :: _ :: _ => by
    simp only [splitDotSpace]
    split
    · simp
    · split <;> simp

theorem stripChars_replicate (n : Nat) (c : Char) (hn : n ≠ 0)
    (hc : c.isWhitespace = false) :
    stripChars (List.replicate n c ++ ['.', ' ']) = List.replicate n c ++ ['.'] := by
  obtain ⟨m, rfl⟩ : ∃ m, n = m + 1 := ⟨n - 1, (Nat.succ_pred_eq_of_ne_zero hn).symm⟩
  have hfront : (List.replicate (m+1) c ++ ['.', ' ']).dropWhile Char.isWhitespace
      = List.replicate (m+1) c ++ ['.', ' '] := by
    rw [List.replicate_succ, List.cons_append, List.dropWhile_cons]
    simp [hc]
  have hws : Char.isWhitespace ' ' = true := by decide
  have hdot : Char.isWhitespace '.' = false := by decide
  rw [stripChars, hfront, List.reverse_append, List.reverse_replicate]
  simp only [List.reverse_cons, List.reverse_nil, List.nil_append, List.cons_append,
    List.dropWhile_cons, hws, hdot]
  simp only [if_true, if_false, Bool.false_eq_true]
  rw [List.reverse_cons, List.reverse_replicate]

theorem chunkStep_snd_ne (maxChars : Nat) (st : List (List Char) × List Char)
    (sentence : List Char) : (chunkStep maxChars st sentence).2 ≠ [] := by
  rw [chunkStep]
  split <;> simp

theorem foldl_chunkStep_snd_ne (maxChars : Nat) :
    ∀ (l : List (List Char)) (st : List (List Char) × List Char),
      st.2 ≠ [] ∨ l ≠ [] → ((l.foldl (chunkStep maxChars) st).2) ≠ []
  | [], st, h => by
    rcases h with h | h
    · simpa using h
    · simp at h
  | a :: l', st, _ => by
    rw [List.foldl_cons]
    exact foldl_chunkStep_snd_ne maxChars l' _ (Or.inl (chunkStep_snd_ne maxChars st a))

/-- C8: the claim asserts every chunk is at most the 2500-character limit
and that the chunks concatenate back to the input.  A 2501-character text
with no sentence boundary is returned as a single chunk of 2502
characters: the splitter appends a period-space to the lone sentence and
strips only the trailing space, so the chunk exceeds the limit and the
concatenation differs from the input. -/
theorem splitText_oversized_chunk :
    splitTextForTts (List.replicate 2501 'a') 2500 = [List.replicate 2501 'a' ++ ['.']]
    ∧ 2500 < (List.replicate 2501 'a' ++ ['.']).length
    ∧ (splitTextForTts (List.replicate 2501 'a') 2500).flatten ≠ List.replicate 2501 'a' := by
  have hnodot : ('.' : Char) ∉ List.replicate 2501 'a' := by
    intro h
    have h2 := List.eq_of_mem_replicate h
    exact absurd h2 (by decide)
  have hlen : ¬ ((List.replicate 2501 'a').length ≤ 2500) := by
    rw [List.length_replicate]
    omega
  have hsplit : splitDotSpace (List.replicate 2501 'a') = [List.replicate 2501 'a'] :=
    splitDotSpace_no_dot _ hnodot
  have hcond : ¬ ((([] : List Char) ++ List.replicate 2501 'a' ++ ['.', ' ']).length ≤ 2500) := by
    rw [List.nil_append, List.length_append, List.length_replicate]
    have h1 : (['.', ' '] : List Char).length = 2 := rfl
    omega
  have hne : List.replicate 2501 'a' ++ ['.', ' '] ≠ [] :=
    List.append_ne_nil_of_right_ne_nil _ (by simp)
  have hmain : splitTextForTts (List.replicate 2501 'a') 2500
      = [List.replicate 2501 'a' ++ ['.']] := by
    rw [splitTextForTts, if_neg hlen, hsplit]
    dsimp only
    rw [List.foldl_cons, List.foldl_nil, chunkStep]
    dsimp only
    rw [if_neg hcond, if_pos rfl]
    dsimp only
    rw [if_neg hne, stripChars_replicate 2501 'a' (by omega) (by decide), List.nil_append]
  have hlen2 : 2500 < (List.replicate 2501 'a' ++ ['.']).length := by
    rw [List.length_append, List.length_replicate]
    omega
  refine ⟨hmain, hlen2, ?_⟩
  rw [hmain]
  intro h
  have h3 := congrArg List.length h
  rw [List.flatten_cons, List.flatten_nil, List.append_nil, List.length_append,
    List.length_replicate] at h3
  have h4 : (['.'] : List Char).length = 1 := rfl
  omega

/-- C8 (amended): a text of at most 2500 characters is returned as the
single unmodified chunk, and the split of any text is nonempty; longer
texts are split at period-space boundaries, but a chunk may exceed the
limit when a single sentence does, and the concatenation of the chunks
need not reconstitute the input exactly. -/
theorem splitText_within_limit (text : List Char) :
    (text.length ≤ 2500 → splitTextForTts text 2500 = [text])
    ∧ splitTextForTts text 2500 ≠ [] := by
  constructor
  · intro h
    rw [splitTextForTts, if_pos h]
  · rw [splitTextForTts]
    split
    · simp
    · have h2 := foldl_chunkStep_snd_ne 2500 (splitDotSpace text) ([], [])
        (Or.inr (splitDotSpace_ne_nil text))
      dsimp only
      rw [if_neg h2]
      exact List.append_ne_nil_of_right_ne_nil _ (by simp)

/-- Witness for C8 (amended): a two-character text is returned whole. -/
theorem splitText_within_limit_witness :
    splitTextForTts ['h', 'i'] 2500 = [['h', 'i']] :=
  (splitText_within_limit ['h', 'i']).1 (by decide)

theorem lookup_map_replace_ne {α : Type} (k k' : String) (v : α) (hne : k' ≠ k) :
    ∀ (m : List (String × α)),
      (m.map (fun p => if p.1 = k then (k, v) else p)).lookup k' = m.lookup k'
  | [] => rfl
  | p :: m' => by
    by_cases hp : p.1 = k
    · rw [List.map_cons, if_pos hp]
      rw [List.lookup_cons, List.lookup_cons]
      have h1 : (k' == k) = false := beq_false_of_ne hne
      have h2 : (k' == p.1) = false := beq_false_of_ne (hp ▸ hne)
      rw [h1, h2]
      exact lookup_map_replace_ne k k' v hne m'
    · rw [List.map_cons, if_neg hp]
      rw [List.lookup_cons, List.lookup_cons]
      cases hbeq : (k' == p.1)
      · exact lookup_map_replace_ne k k' v hne m'
      · rfl

theorem lookup_dictInsert_self {α : Type} :
    ∀ (m : List (String × α)) (k : String) (v : α),
      (dictInsert m k v).lookup k = some v
  | [], k, v => by simp [dictInsert]
  | p :: m', k, v => by
    rw [dictInsert]
    by_cases hp : p.1 = k
    · rw [if_pos (by simp [List.any_cons, hp])]
      rw [List.map_cons, if_pos hp, List.lookup_cons]
      simp
    · have ih := lookup_dictInsert_self m' k v
      by_cases hany : m'.any (fun p => p.1 = k) = true
      · rw [if_pos (by simp [List.any_cons, hany])]
        rw [List.map_cons, if_neg hp, List.lookup_cons]
        have h2 : (k == p.1) = false := beq_false_of_ne (fun h => hp h.symm)
        rw [h2]
        rw [dictInsert, if_pos hany] at ih
        exact ih
      · have hanyc : ¬ ((p :: m').any (fun p => p.1 = k) = true) := by
          simp only [List.any_cons, Bool.or_eq_true, decide_eq_true_eq]
          push_neg
          refine ⟨hp, ?_⟩
          simpa using hany
        rw [if_neg hanyc, List.cons_append, List.lookup_cons]
        have h2 : (k == p.1) = false := beq_false_of_ne (fun h => hp h.symm)
        rw [h2]
        rw [dictInsert, if_neg hany] at ih
        exact ih

theorem lookup_dictInsert_ne {α : Type} (m : List (String × α)) (k k' : String)
    (v : α) (hne : k' ≠ k) : (dictInsert m k v).lookup k' = m.lookup k' := by
  rw [dictInsert]
  split
  · exact lookup_map_replace_ne k k' v hne m
  · rw [List.lookup_append]
    have h1 : ([(k, v)] : List (String × α)).lookup k' = none := by
      rw [List.lookup_cons]
      rw [beq_false_of_ne hne]
      rfl
    rw [h1]
    cases m.lookup k' <;> rfl

theorem createVoiceover_fst (env : VoiceEnv) (configs : List (String × VoiceConfig))
    (text : List Char) (language voice_style : String) (custom : Option String)
    (hk : env.hasApiKey = true) (base : VoiceConfig)
    (hb : getVoiceConfig configs language = some base) :
    (createVoiceover env configs text language voice_style custom).1
      = dictInsert configs (voiceConfigKey configs language)
          (styledConfig base voice_style custom) := by
  rw [createVoiceover, if_neg (by rw [hk]; simp), hb]
  dsimp only
  cases primaryResult env text <;> rfl

theorem createVoiceover_snd_some (env : VoiceEnv) (configs : List (String × VoiceConfig))
    (text : List Char) (language voice_style : String) (custom : Option String)
    (f : String) (hk : env.hasApiKey = true)
    (hb : (getVoiceConfig configs language).isSome = true)
    (hp : primaryResult env text = some f) :
    (createVoiceover env configs text language voice_style custom).2 = f := by
  rw [createVoiceover, if_neg (by rw [hk]; simp)]
  obtain ⟨base, hbase⟩ := Option.isSome_iff_exists.mp hb
  rw [hbase]
  dsimp only
  rw [hp]

/-- C6: the claim asserts no synthesize call modifies the process-wide
configuration; create_voiceover aliases the stored per-language dict and
writes the style preset into it (voiceover_generator.py lines 89-98), so
after one call with the default professional style the stored English
config differs from its startup value (stability 6/10 instead of 5/10). -/
theorem voice_config_mutated :
    ((createVoiceover envPrimaryOk initVoiceConfigs ['h', 'i'] "en" "professional" none).1).lookup "en"
      ≠ initVoiceConfigs.lookup "en" := by
  have h1 : (createVoiceover envPrimaryOk initVoiceConfigs ['h', 'i'] "en" "professional" none).1
      = dictInsert initVoiceConfigs (voiceConfigKey initVoiceConfigs "en")
          (styledConfig enVoiceConfig "professional" none) :=
    createVoiceover_fst envPrimaryOk initVoiceConfigs ['h', 'i'] "en" "professional" none
      rfl enVoiceConfig rfl
  have hkey : voiceConfigKey initVoiceConfigs "en" = "en" := rfl
  rw [h1, hkey, lookup_dictInsert_self]
  have h2 : initVoiceConfigs.lookup "en" = some enVoiceConfig := rfl
  rw [h2]
  intro h
  have h3 := Option.some.inj h
  have h4 := congrArg VoiceConfig.stability h3
  have h5 : (styledConfig enVoiceConfig "professional" none).stability = 6/10 := rfl
  have h6 : enVoiceConfig.stability = 5/10 := rfl
  rw [h5, h6] at h4
  norm_num at h4

/-- C6 (amended): a create_voiceover call with a configured API key
rewrites exactly one stored entry - the one the aliased voice_config
reference points at (the requested language when configured, otherwise
'en') - with the preset-styled configuration; every other language's
stored configuration is left unchanged. -/
theorem voice_config_update_localized (env : VoiceEnv)
    (configs : List (String × VoiceConfig)) (text : List Char)
    (language voice_style : String) (custom : Option String)
    (hk : env.hasApiKey = true) (base : VoiceConfig)
    (hb : getVoiceConfig configs language = some base) :
    (createVoiceover env configs text language voice_style custom).1
      = dictInsert configs (voiceConfigKey configs language)
          (styledConfig base voice_style custom)
    ∧ ∀ l, l ≠ voiceConfigKey configs language →
        ((createVoiceover env configs text language voice_style custom).1).lookup l
          = configs.lookup l := by
  have h1 := createVoiceover_fst env configs text language voice_style custom hk base hb
  refine ⟨h1, fun l hl => ?_⟩
  rw [h1, lookup_dictInsert_ne _ _ _ _ hl]

/-- Witness for C6 (amended): the call that rewrites the English entry
leaves the German entry untouched. -/
theorem voice_config_update_localized_witness :
    ((createVoiceover envPrimaryOk initVoiceConfigs ['h', 'i'] "en" "professional" none).1).lookup "de"
      = initVoiceConfigs.lookup "de" :=
  (voice_config_update_localized envPrimaryOk initVoiceConfigs ['h', 'i'] "en"
    "professional" none rfl enVoiceConfig rfl).2 "de" (by decide)

theorem splitTextForTts_textC3 :
    splitTextForTts textC3 2500
      = [List.replicate 1300 'a' ++ ['.'], List.replicate 1300 'b' ++ ['.']] := by
  have hna : ('.' : Char) ∉ List.replicate 1300 'a' := by
    intro h
    exact absurd (List.eq_of_mem_replicate h) (by decide)
  have hnb : ('.' : Char) ∉ List.replicate 1300 'b' := by
    intro h
    exact absurd (List.eq_of_mem_replicate h) (by decide)
  have hsp : (['.', ' '] : List Char).length = 2 := rfl
  have hlen : ¬ (textC3.length ≤ 2500) := by
    rw [textC3, List.length_append, List.length_replicate, List.length_cons,
      List.length_cons, List.length_replicate]
    omega
  have hsplit : splitDotSpace textC3
      = [List.replicate 1300 'a', List.replicate 1300 'b'] := by
    rw [textC3, splitDotSpace_append _ _ hna, splitDotSpace_no_dot _ hnb]
  have hc1 : ((([] : List Char) ++ List.replicate 1300 'a' ++ ['.', ' ']).length ≤ 2500) := by
    rw [List.nil_append, List.length_append, List.length_replicate, hsp]
    omega
  have hc2 : ¬ ((([] : List Char) ++ List.replicate 1300 'a' ++ ['.', ' ']
      ++ List.replicate 1300 'b' ++ ['.', ' ']).length ≤ 2500) := by
    rw [List.nil_append, List.length_append, List.length_append, List.length_append,
      List.length_replicate, List.length_replicate, hsp]
    omega
  have hne1 : ([] : List Char) ++ List.replicate 1300 'a' ++ ['.', ' '] ≠ [] := by
    rw [List.nil_append]
    exact List.append_ne_nil_of_right_ne_nil _ (by simp)
  have hne2 : List.replicate 1300 'b' ++ ['.', ' '] ≠ [] :=
    List.append_ne_nil_of_right_ne_nil _ (by simp)
  rw [splitTextForTts, if_neg hlen, hsplit]
  dsimp only
  rw [List.foldl_cons, chunkStep, if_pos hc1]
  rw [List.foldl_cons, List.foldl_nil, chunkStep]
  dsimp only
  rw [if_neg hc2, if_neg hne1]
  dsimp only
  rw [if_neg hne2, List.nil_append, List.nil_append,
    stripChars_replicate 1300 'a' (by omega) (by decide),
    stripChars_replicate 1300 'b' (by omega) (by decide)]
  rfl

theorem primaryFiles_envC3 : primaryFiles envC3 textC3 = ["c0.mp3"] := by
  rw [primaryFiles, splitTextForTts_textC3]
  rfl

/-- C3: the claim asserts a failed chunk fails the whole primary tier and
the cascade proceeds to the secondary provider; in the code a failed
chunk is silently skipped (voiceover_generator.py lines 104-109), so with
chunk 0 succeeding and chunk 1 failing the call returns the artifact
assembled from the surviving chunk, not the tier-2 artifact. -/
theorem partial_chunk_failure_keeps_tier1 :
    envC3.chunkSynth 1 (List.replicate 1300 'b' ++ ['.']) = none
    ∧ envC3.gtts = some "gtts.mp3"
    ∧ (createVoiceover envC3 initVoiceConfigs textC3 "en" "professional" none).2 = "c0.mp3"
    ∧ ("c0.mp3" : String) ≠ "gtts.mp3" := by
  refine ⟨rfl, rfl, ?_, by decide⟩
  apply createVoiceover_snd_some envC3 initVoiceConfigs textC3 "en" "professional" none
    "c0.mp3" rfl rfl
  rw [primaryResult, primaryFiles_envC3]
  rfl

/-- C3 (amended): the primary tier is abandoned only when every chunk
fails: as soon as at least one chunk synthesizes, the returned artifact is
assembled from the succeeded chunks alone (the single file, or the merge
of the survivors), and the result does not depend on the fallback tiers at
all. -/
theorem primary_partial_artifact (env : VoiceEnv)
    (configs : List (String × VoiceConfig)) (text : List Char)
    (language voice_style : String) (custom : Option String)
    (hk : env.hasApiKey = true)
    (hb : (getVoiceConfig configs language).isSome = true)
    (hne : primaryFiles env text ≠ []) :
    ((createVoiceover env configs text language voice_style custom).2 ∈ primaryFiles env text
      ∨ (createVoiceover env configs text language voice_style custom).2
          = env.mergeFiles (primaryFiles env text))
    ∧ ∀ g s, (createVoiceover { env with gtts := g, silent := s } configs text
        language voice_style custom).2
        = (createVoiceover env configs text language voice_style custom).2 := by
  obtain ⟨f, files', hfiles⟩ : ∃ f files', primaryFiles env text = f :: files' := by
    cases hf : primaryFiles env text with
    | nil => exact absurd hf hne
    | cons f fs => exact ⟨f, fs, rfl⟩
  have hsome : ∃ g, primaryResult env text = some g
      ∧ (g ∈ primaryFiles env text ∨ g = env.mergeFiles (primaryFiles env text)) := by
    rw [primaryResult]
    by_cases hlong : (primaryFiles env text).length > 1
    · exact ⟨env.mergeFiles (primaryFiles env text), by rw [if_pos hlong], Or.inr rfl⟩
    · refine ⟨f, ?_, Or.inl (by rw [hfiles]; exact List.mem_cons_self _ _)⟩
      rw [if_neg hlong, hfiles]
      rfl
  obtain ⟨g, hg, hgmem⟩ := hsome
  have h2 := createVoiceover_snd_some env configs text language voice_style custom g
    hk hb hg
  refine ⟨h2 ▸ hgmem, fun gt sl => ?_⟩
  have h3 := createVoiceover_snd_some { env with gtts := gt, silent := sl } configs text
    language voice_style custom g hk hb hg
  rw [h2, h3]

/-- Witness for C3 (amended): with one failing and one succeeding chunk,
the result is among the succeeded chunk files and ignores the fallback
tiers. -/
theorem primary_partial_artifact_witness :
    ((createVoiceover envC3 initVoiceConfigs textC3 "en" "professional" none).2
        ∈ primaryFiles envC3 textC3
      ∨ (createVoiceover envC3 initVoiceConfigs textC3 "en" "professional" none).2
          = envC3.mergeFiles (primaryFiles envC3 textC3))
    ∧ ∀ g s, (createVoiceover { envC3 with gtts := g, silent := s } initVoiceConfigs
        textC3 "en" "professional" none).2
        = (createVoiceover envC3 initVoiceConfigs textC3 "en" "professional" none).2 :=
  primary_partial_artifact envC3 initVoiceConfigs textC3 "en" "professional" none
    rfl rfl (by rw [primaryFiles_envC3]; simp)

/-- C4: the claim asserts create_voiceover always returns a usable
artifact path together with an attempt trail of length 3; the code
returns only a bare path and, when the primary tier, gTTS and even the
silent-file creation all fail, that path is the empty string
(voiceover_generator.py line 297) - an unusable value, with no attempt
trail anywhere in the interface. -/
theorem synthesize_empty_on_total_failure :
    (createVoiceover envAllFail initVoiceConfigs ['h', 'i'] "en" "professional" none).2
      = "" := rfl

/-- C4 (amended): create_voiceover is total (it never raises) but returns
only a path, with no attempt trail; when the primary provider is
unavailable or yields no chunk and gTTS fails, it returns the silent
placeholder of the fixed 30-second duration, and only when the silent
file also fails does it degrade to the empty string. -/
theorem synthesize_total_fallback (env : VoiceEnv)
    (configs : List (String × VoiceConfig)) (text : List Char)
    (language voice_style : String) (custom : Option String) (p : String)
    (hp : env.hasApiKey = false ∨ primaryFiles env text = [])
    (hg : env.gtts = none) (hs : env.silent = some p) :
    (createVoiceover env configs text language voice_style custom).2 = p
    ∧ silentAudioDurationSeconds = 30 := by
  have hfb : fallbackAudio env = p := by rw [fallbackAudio, hg, hs]
  refine ⟨?_, rfl⟩
  rcases hp with hk | hfiles
  · rw [createVoiceover, if_pos hk]
    exact hfb
  · rw [createVoiceover]
    split
    · exact hfb
    · cases hbc : getVoiceConfig configs language with
      | none => exact hfb
      | some base =>
        dsimp only
        have hpr : primaryResult env text = none := by
          rw [primaryResult, hfiles]
          rfl
        rw [hpr]
        exact hfb

/-- Witness for C4 (amended): with no API key and a failing gTTS, the
silent placeholder path is returned. -/
theorem synthesize_total_fallback_witness :
    (createVoiceover envSilentOnly initVoiceConfigs ['h', 'i'] "en" "professional" none).2
      = "silent.mp3"
    ∧ silentAudioDurationSeconds = 30 :=
  synthesize_total_fallback envSilentOnly initVoiceConfigs ['h', 'i'] "en" "professional"
    none "silent.mp3" (Or.inl rfl) rfl rfl

theorem foldl_runLang_notMem (env : String → LangEnv) (includeAffiliates : Bool) :
    ∀ (langs : List String) (m : List (String × LangResult)) (l : String),
      l ∉ langs →
      (langs.foldl (fun m lang =>
          dictInsert m lang (runLang (env lang) includeAffiliates)) m).lookup l
        = m.lookup l
  | [], _, _, _ => rfl
  | a :: rest, m, l, h => by
    rw [List.foldl_cons]
    have hne : l ≠ a := fun hl => h (hl ▸ List.mem_cons_self _ _)
    rw [foldl_runLang_notMem env includeAffiliates rest _ l
      (fun hm => h (List.mem_cons_of_mem _ hm))]
    exact lookup_dictInsert_ne _ _ _ _ hne

theorem foldl_runLang_mem (env : String → LangEnv) (includeAffiliates : Bool) :
    ∀ (langs : List String) (m : List (String × LangResult)) (l : String),
      l ∈ langs →
      (langs.foldl (fun m lang =>
          dictInsert m lang (runLang (env lang) includeAffiliates)) m).lookup l
        = some (runLang (env l) includeAffiliates)
  | [], _, _, h => absurd h (List.not_mem_nil _)
  | a :: rest, m, l, h => by
    rw [List.foldl_cons]
    by_cases hrest : l ∈ rest
    · exact foldl_runLang_mem env includeAffiliates rest _ l hrest
    · have hla : l = a := by
        rcases List.mem_cons.mp h with h1 | h1
        · exact h1
        · exact absurd h1 hrest
      subst hla
      rw [foldl_runLang_notMem env includeAffiliates rest _ l hrest]
      exact lookup_dictInsert_self _ _ _

/-- C9: a stage-scoped failure for one language is caught, recorded as
that language's error entry with the failure message, and every
language's entry is a function of that language's own stage environment
alone, so sibling languages are unaffected. -/
theorem stage_pipeline_isolation (env : String → LangEnv) (includeAffiliates : Bool)
    (langs : List String) (l : String) (m : String) (hl : l ∈ langs)
    (hfail : runLang (env l) includeAffiliates = LangResult.error m) :
    (createVideoContent env includeAffiliates langs).lookup l
      = some (LangResult.error m)
    ∧ ∀ l', l' ∈ langs →
        (createVideoContent env includeAffiliates langs).lookup l'
          = some (runLang (env l') includeAffiliates) := by
  constructor
  · rw [createVideoContent, foldl_runLang_mem env includeAffiliates langs [] l hl, hfail]
  · intro l' hl'
    rw [createVideoContent, foldl_runLang_mem env includeAffiliates langs [] l' hl']

/-- Witness for C9: with languages en and de and the de branch failing at
the voice stage, de carries exactly the error record, en is complete with
full artifacts, and the aggregate holds exactly one error entry. -/
theorem stage_pipeline_isolation_witness :
    (createVideoContent langEnvEx true ["en", "de"]).lookup "de"
        = some (LangResult.error "TTS down")
    ∧ (createVideoContent langEnvEx true ["en", "de"]).lookup "en"
        = some (LangResult.ok "script-en" "audio-en" "video-en" "upload-en")
    ∧ (createVideoContent langEnvEx true ["en", "de"]).countP
        (fun p => match p.2 with
          | LangResult.error _ => true
          | LangResult.ok _ _ _ _ => false) = 1 := by
  have h := stage_pipeline_isolation langEnvEx true ["en", "de"] "de" "TTS down"
    (by decide) (by decide)
  refine ⟨h.1, ?_, by decide⟩
  rw [h.2 "en" (by decide)]
  decide

/-- C2: the claim asserts continuous mode survives a cycle failure and
attempts the next cycle; run_automation_cycle re-raises after logging and
the auto-mode while loop has no per-cycle handler, so a failing first
cycle terminates the process with status 1 and the second cycle is never
attempted - unlike the two-good-cycle run, which attempts both and never
exits. -/
theorem auto_mode_dies_on_cycle_failure :
    mainAutoMode [cycleBad, cycleGood] = (1, some 1)
    ∧ mainAutoMode [cycleGood, cycleGood] = (2, none) := by
  constructor
  · rfl
  · rfl

/-- C2 (amended): an unexpected error escaping the per-pair isolation
boundary (here: get_trending_topics raising) is logged and re-raised by
run_automation_cycle, escapes the auto-mode loop, and the process exits
with status 1 having attempted only the failing cycle; later cycles are
not attempted. -/
theorem cycle_failure_exits_process (env : CycleEnv) (rest : List CycleEnv)
    (e : String) (h : env.trendTopics = Except.error e) :
    runAutomationCycle env = Except.error e
    ∧ mainAutoMode (env :: rest) = (1, some 1) := by
  have h1 : runAutomationCycle env = Except.error e := by
    rw [runAutomationCycle, generateTrendingContent, h]
  refine ⟨h1, ?_⟩
  rw [mainAutoMode, h1]

/-- Witness for C2 (amended), on the concrete failing cycle. -/
theorem cycle_failure_exits_process_witness :
    runAutomationCycle cycleBad = Except.error "ranking crashed"
    ∧ mainAutoMode [cycleBad, cycleGood] = (1, some 1) :=
  cycle_failure_exits_process cycleBad [cycleGood] "ranking crashed" rfl

/-- C10: the claim asserts a per-upload collection error is caught
independently and aborts no other upload; the try block wraps the whole
per-topic loop (main_automation_script.py lines 177-185), so when
collection for u1 raises, the sibling upload u2 of the same topic result
is never collected even though it is eligible. -/
theorem feedback_error_skips_rest_of_topic :
    collectFeedbackForVideos collectEx resultsEx = ["u1"]
    ∧ (resultsEx.map uploadsOf).flatten = ["u1", "u2"] := by
  constructor
  · rfl
  · rfl

theorem collectResult_all_ok (collect : String → Except String Unit) :
    ∀ (r : List (String × LangResult)),
      (∀ u ∈ uploadsOf r, collect u = Except.ok ()) →
      collectResult collect r = uploadsOf r
  | [], _ => rfl
  | (lang, LangResult.error m) :: rest, h => by
    have ih := collectResult_all_ok collect rest h
    calc collectResult collect ((lang, LangResult.error m) :: rest)
        = collectResult collect rest := rfl
      _ = uploadsOf rest := ih
      _ = uploadsOf ((lang, LangResult.error m) :: rest) := rfl
  | (lang, LangResult.ok s a v u) :: rest, h => by
    have hu : collect u = Except.ok () :=
      h u (by
        have : uploadsOf ((lang, LangResult.ok s a v u) :: rest) = u :: uploadsOf rest := rfl
        rw [this]
        exact List.mem_cons_self _ _)
    have ih := collectResult_all_ok collect rest
      (fun u' hu' => h u' (by
        have : uploadsOf ((lang, LangResult.ok s a v u) :: rest) = u :: uploadsOf rest := rfl
        rw [this]
        exact List.mem_cons_of_mem _ hu'))
    show (match collect u with
      | Except.ok _ => u :: collectResult collect rest
      | Except.error _ => [u]) = uploadsOf ((lang, LangResult.ok s a v u) :: rest)
    rw [hu]
    have huploads : uploadsOf ((lang, LangResult.ok s a v u) :: rest)
        = u :: uploadsOf rest := rfl
    rw [huploads, ih]

theorem foldl_append_flatten {α β : Type} (f : α → List β) :
    ∀ (l : List α) (acc : List β),
      l.foldl (fun a r => a ++ f r) acc = acc ++ (l.map f).flatten
  | [], acc => by simp
  | a :: l', acc => by
    rw [List.foldl_cons, foldl_append_flatten f l' (acc ++ f a), List.map_cons,
      List.flatten_cons, List.append_assoc]

/-- C10 (amended): after the fixed two-hour delay, topic results are
processed independently of one another (the trace is the concatenation of
the per-topic traces), and within a topic result whose collections all
succeed the collector is invoked exactly once per eligible upload; a
collection error aborts only the remaining uploads of the same topic
result, never the other results of the batch. -/
theorem feedback_per_topic_isolation (collect : String → Except String Unit)
    (results : List (List (String × LangResult))) :
    collectFeedbackForVideos collect results
      = (results.map (collectResult collect)).flatten
    ∧ (∀ r, (∀ u ∈ uploadsOf r, collect u = Except.ok ()) →
        collectResult collect r = uploadsOf r)
    ∧ feedbackDelaySeconds = 7200 := by
  refine ⟨?_, collectResult_all_ok collect, rfl⟩
  rw [collectFeedbackForVideos, foldl_append_flatten, List.nil_append]

/-- Witness for C10 (amended): with an always-succeeding collector the
two-upload topic result is collected exactly once per upload, and the
batch trace is the per-topic concatenation. -/
theorem feedback_per_topic_isolation_witness :
    collectFeedbackForVideos collectOkAll resultsEx
      = (resultsEx.map (collectResult collectOkAll)).flatten
    ∧ collectResult collectOkAll
        [("en", LangResult.ok "s" "a" "v" "u1"), ("de", LangResult.ok "s" "a" "v" "u2")]
      = uploadsOf
        [("en", LangResult.ok "s" "a" "v" "u1"), ("de", LangResult.ok "s" "a" "v" "u2")]
    ∧ feedbackDelaySeconds = 7200 :=
  ⟨(feedback_per_topic_isolation collectOkAll resultsEx).1,
   (feedback_per_topic_isolation collectOkAll resultsEx).2.1 _ (fun _ _ => rfl),
   (feedback_per_topic_isolation collectOkAll resultsEx).2.2⟩
